import Mathlib

/-!
Verification of the tiled Mandelbrot explorer.

Shallow embedding of the Rust sources into Lean 4:
* `f64` values are modelled as exact rationals (`ℚ`); the one transcendental
  operation (`powf` in the view controller) is modelled over `ℝ`.
* machine integers (`u16`, `u32`, `i64`, `usize`) are modelled as `ℕ`; every
  value proved about stays far below the corresponding word size, and the one
  place the source reduces modulo `u16::MAX` is kept literally.
* the shared cancellation atomic is modelled as the sequence of values the
  compute loop observes: a function from the index of the load to the observed
  comparison result (`true` means the token no longer matches, i.e. cancel).
* effects of the compute loop (atomic polls, output-buffer writes) and of the
  per-frame render pass (queue submits, texture writes) are reified as event
  traces threaded through explicit state.
-/

namespace Mandel

/-- 2D vector of naturals, mirroring `glam::UVec2` (`u32` components). -/
structure UVec2 where
  x : ℕ
  y : ℕ
deriving DecidableEq

/-- 2D vector of rationals, mirroring `glam::DVec2` (`f64` components, exact model). -/
structure DVec2 where
  x : ℚ
  y : ℚ
deriving DecidableEq

/-- Pixel rectangle `URect` (`from_pos_size` stores `pos` and `size`). -/
structure URect where
  pos : UVec2
  size : UVec2
deriving DecidableEq

/-- Fractal-plane rectangle `DRect` / `RectF64`: position and size. -/
structure DRect where
  pos : DVec2
  size : DVec2
deriving DecidableEq

def DRect.from_pos_size (pos size : DVec2) : DRect := ⟨pos, size⟩

/-- `tex_rect.area()`: number of pixels of the rectangle, `size.x * size.y`. -/
def URect.area (r : URect) : ℕ := r.size.x * r.size.y

/-! ## SIMD Mandelbrot compute (`mandelbrot_simd.rs`) -/

/-- One output pixel, `struct Pixel { r: u16 }`. -/
structure Pixel where
  r : ℕ
deriving DecidableEq

/-- `SIMD_LANE_COUNT`. -/
def SIMD_LANE_COUNT : ℕ := 8

/-- An 8-lane SIMD vector, one value per lane. -/
abbrev Lane (α : Type) := Fin 8 → α

/-- `CX_INIT`: lane index as a float, `[0.0, 1.0, ..., 7.0]`. -/
def CX_INIT : Lane ℚ := fun j => ((j : ℕ) : ℚ)

/-- The loop state of `pixel`: `zx`, `zy`, `cnt`, `escaped` (all 8-lane). -/
structure PixState where
  zx : Lane ℚ
  zy : Lane ℚ
  cnt : Lane ℕ
  escaped : Lane Bool

/-- One iteration body of `pixel` up to the escape test:
`(zx, zy) = (zx*zx - zy*zy + cx, zx*zy + zx*zy + cy); escaped |= (zx*zx + zy*zy) >= 5.0`. -/
def pixelStep (cx cy : Lane ℚ) (s : PixState) : PixState :=
  let zx : Lane ℚ := fun j => s.zx j * s.zx j - s.zy j * s.zy j + cx j
  let zy : Lane ℚ := fun j => s.zx j * s.zy j + s.zx j * s.zy j + cy j
  let escaped : Lane Bool := fun j => s.escaped j || decide (5 ≤ zx j * zx j + zy j * zy j)
  { zx := zx, zy := zy, cnt := s.cnt, escaped := escaped }

/-- The `for _ in 0..max_iterations` loop of `pixel`: after the escape test,
break when every lane escaped, otherwise `cnt += escaped.select(0, 1)`. -/
def pixelLoop (cx cy : Lane ℚ) : ℕ → PixState → PixState
  | 0, s => s
  | n + 1, s =>
    let t := pixelStep cx cy s
    if ∀ j, t.escaped j = true then t
    else pixelLoop cx cy n
      { t with cnt := fun j => t.cnt j + (if t.escaped j then 0 else 1) }

/-- Initial state of `pixel`: `zx = zy = 0`, `cnt = 0`, `escaped = false`. -/
def pixelInit : PixState :=
  { zx := fun _ => 0, zy := fun _ => 0, cnt := fun _ => 0, escaped := fun _ => false }

/-- `fn pixel(max_iterations, cx, cy) -> CountSimd`: runs the iteration loop and
packs the counts: a lane that never escaped (count equal to `max_iterations`)
maps to 0, an escaped lane to `1 + (iters % u16::MAX)`. -/
def pixel (max_iterations : ℕ) (cx cy : Lane ℚ) : Lane Pixel :=
  let s := pixelLoop cx cy max_iterations pixelInit
  fun j => if s.cnt j = max_iterations then ⟨0⟩ else ⟨1 + s.cnt j % 65535⟩

/-- The arguments of `mandelbrot_simd`. -/
structure SimdParams where
  image_size : ℕ
  tile_rect : URect
  fractal_offset : DVec2
  fractal_scale : ℚ
  max_iterations : ℕ

/-- `buffer_frame`: the tile rectangle mapped into the fractal plane, with the
source's extra `0.74` shift applied to `fractal_offset.x`. -/
def buffer_frame (p : SimdParams) : DRect :=
  let image_size : ℚ := (p.image_size : ℚ)
  DRect.from_pos_size
    ⟨((p.tile_rect.pos.x : ℚ) / image_size - 0.5) / p.fractal_scale
        - (p.fractal_offset.x + 0.74),
     ((p.tile_rect.pos.y : ℚ) / image_size - 0.5) / p.fractal_scale
        - p.fractal_offset.y⟩
    ⟨((p.tile_rect.size.x : ℚ) / image_size) / p.fractal_scale,
     ((p.tile_rect.size.y : ℚ) / image_size) / p.fractal_scale⟩

/-- The `cx` SIMD vector of the block at horizontal block index `x`:
`(CX_INIT + splat(x*8)) * splat(frame.size.x / size.x) + splat(frame.pos.x)`. -/
def cxLane (p : SimdParams) (x : ℕ) : Lane ℚ := fun j =>
  (CX_INIT j + ((x * SIMD_LANE_COUNT : ℕ) : ℚ))
      * ((buffer_frame p).size.x / ((p.tile_rect.size.x : ℕ) : ℚ))
    + (buffer_frame p).pos.x

/-- The `cy` SIMD vector of row `y`:
`splat(frame.pos.y + frame.size.y * (y / size.y))`. -/
def cyLane (p : SimdParams) (y : ℕ) : Lane ℚ := fun _ =>
  (buffer_frame p).pos.y
    + (buffer_frame p).size.y * (((y : ℕ) : ℚ) / ((p.tile_rect.size.y : ℕ) : ℚ))

/-- Observable events of one `mandelbrot_simd` run: a poll of the cancel token
(with the observed comparison result) or a write of `count` output pixels. -/
inductive SimdEvent
  | poll (observed : Bool)
  | write (count : ℕ)
deriving DecidableEq

/-- Explicit state of a `mandelbrot_simd` run: whether the early
`return Err("Cancelled")` was taken, the output buffer, the number of cancel
polls answered so far, and the event trace. -/
structure SimdState where
  cancelled : Bool
  buffer : List Pixel
  polls : ℕ
  trace : List SimdEvent

/-- `buffer[start_index..start_index + SIMD_LANE_COUNT].copy_from_slice(values)`:
set the 8 consecutive cells starting at `start`. -/
def writeBlock (buf : List Pixel) (start : ℕ) (vals : Lane Pixel) : List Pixel :=
  (List.finRange 8).foldl (fun b j => b.set (start + (j : ℕ)) (vals j)) buf

/-- One iteration of the inner `x` loop of `mandelbrot_simd`: poll the cancel
token every 32 pixels (`(x * SIMD_LANE_COUNT) % 32 == 0`) and return early if it
observes a mismatch, otherwise compute the 8-lane block and store it at
`y * size.x + x * SIMD_LANE_COUNT`.  A state that already returned is frozen. -/
def stepBlock (p : SimdParams) (cancel : ℕ → Bool) (y x : ℕ) (st : SimdState) : SimdState :=
  if st.cancelled then st else
  let st1 :=
    if (x * SIMD_LANE_COUNT) % 32 = 0 then
      if cancel st.polls then
        { st with cancelled := true, trace := st.trace ++ [SimdEvent.poll true] }
      else
        { st with polls := st.polls + 1, trace := st.trace ++ [SimdEvent.poll false] }
    else st
  if st1.cancelled then st1 else
  { st1 with
    buffer := writeBlock st1.buffer (y * p.tile_rect.size.x + x * SIMD_LANE_COUNT)
      (pixel p.max_iterations (cxLane p x) (cyLane p y)),
    trace := st1.trace ++ [SimdEvent.write SIMD_LANE_COUNT] }

/-- `for x in 0..tile_rect.size.x / SIMD_LANE_COUNT`: `n` remaining blocks,
current block index `x`. -/
def xLoop (p : SimdParams) (cancel : ℕ → Bool) (y : ℕ) : ℕ → ℕ → SimdState → SimdState
  | 0, _, st => st
  | n + 1, x, st => xLoop p cancel y n (x + 1) (stepBlock p cancel y x st)

/-- `for y in 0..tile_rect.size.y`: `n` remaining rows, current row `y`. -/
def yLoop (p : SimdParams) (cancel : ℕ → Bool) : ℕ → ℕ → SimdState → SimdState
  | 0, _, st => st
  | n + 1, y, st =>
    yLoop p cancel n (y + 1)
      (xLoop p cancel y (p.tile_rect.size.x / SIMD_LANE_COUNT) 0 st)

/-- Initial run state: `vec![Pixel::default(); 2 * size.x * size.y]`,
no polls, no events. -/
def initSimdState (p : SimdParams) : SimdState :=
  { cancelled := false,
    buffer := List.replicate (2 * (p.tile_rect.size.x * p.tile_rect.size.y)) ⟨0⟩,
    polls := 0,
    trace := [] }

/-- The whole main loop of `mandelbrot_simd` (the multisample pass is compiled
out: `MULTISAMPLE_ENABLED = false`). -/
def simdRun (p : SimdParams) (cancel : ℕ → Bool) : SimdState :=
  yLoop p cancel p.tile_rect.size.y 0 (initSimdState p)

/-- `mandelbrot_simd`: `Err` when cancelled, otherwise `Ok(buffer)`. -/
def mandelbrot_simd (p : SimdParams) (cancel : ℕ → Bool) : Except Unit (List Pixel) :=
  let st := simdRun p cancel
  if st.cancelled then Except.error () else Except.ok st.buffer

/-! ### Specification-side formulas for the compute (claims about `c`) -/

/-- The spec's pixel-to-plane map, x component, at absolute pixel column `xx`:
`((tex_rect.pos.x + xx)/image_size - 0.5)/fractal_scale - fractal_offset.x`. -/
def c_spec_x (p : SimdParams) (xx : ℕ) : ℚ :=
  (((p.tile_rect.pos.x : ℚ) + (xx : ℚ)) / (p.image_size : ℚ) - 0.5) / p.fractal_scale
    - p.fractal_offset.x

/-- The x component the code actually uses: the spec's map with the extra
`0.74` shift the source adds to `fractal_offset.x`. -/
def c_amended_x (p : SimdParams) (xx : ℕ) : ℚ :=
  (((p.tile_rect.pos.x : ℚ) + (xx : ℚ)) / (p.image_size : ℚ) - 0.5) / p.fractal_scale
    - (p.fractal_offset.x + 0.74)

/-- The y component of the pixel-to-plane map at absolute pixel row `y`
(spec and code agree on this component). -/
def c_spec_y (p : SimdParams) (y : ℕ) : ℚ :=
  (((p.tile_rect.pos.y : ℚ) + (y : ℚ)) / (p.image_size : ℚ) - 0.5) / p.fractal_scale
    - p.fractal_offset.y

/-! ### Escape-index specification for the iteration (claim C2) -/

/-- The Mandelbrot orbit of `c`: `z 0 = 0`, `z (i+1) = z i ^ 2 + c`,
written with the source's componentwise update. -/
def zIter (c : ℚ × ℚ) : ℕ → ℚ × ℚ
  | 0 => (0, 0)
  | i + 1 =>
    let z := zIter c i
    (z.1 * z.1 - z.2 * z.2 + c.1, z.1 * z.2 + z.1 * z.2 + c.2)

/-- Whether `|z_i|^2` reaches the escape threshold (`escape_radius^2 = 5`). -/
def escapeTest (c : ℚ × ℚ) (i : ℕ) : Bool :=
  decide (5 ≤ (zIter c i).1 * (zIter c i).1 + (zIter c i).2 * (zIter c i).2)

/-- The smallest `i` with `1 ≤ i ≤ m` and `|z_i|^2 ≥ 5`, if any. -/
def firstEscape (m : ℕ) (c : ℚ × ℚ) : Option ℕ :=
  (List.range m).findSome? fun t => if escapeTest c (t + 1) then some (t + 1) else none

/-! ### Trace predicates for the cancellation claim (C3) -/

/-- Pixels written after the trace's last poll (accumulator `g` counts pixels
written before the trace since that poll). -/
def endGap : ℕ → List SimdEvent → ℕ
  | g, [] => g
  | g, SimdEvent.write n :: r => endGap (g + n) r
  | _, SimdEvent.poll _ :: r => endGap 0 r

/-- Every write of the trace happens at most 32 pixels after the last poll:
the flag is polled at least once every 32 pixels of work. -/
def gapsOK : ℕ → List SimdEvent → Bool
  | _, [] => true
  | g, SimdEvent.write n :: r => decide (g + n ≤ 32) && gapsOK (g + n) r
  | _, SimdEvent.poll _ :: r => gapsOK 0 r

/-- Does some poll of the trace observe the cancel token set? -/
def hasTruePoll (t : List SimdEvent) : Bool :=
  t.any fun e => match e with | SimdEvent.poll true => true | _ => false

/-- A poll that observes the token set is the last event of the trace: nothing
further is written after it. -/
def stopsAtCancel : List SimdEvent → Bool
  | [] => true
  | SimdEvent.poll true :: r => r.isEmpty
  | _ :: r => stopsAtCancel r

/-- Total number of pixels written in a trace. -/
def totalWrites : List SimdEvent → ℕ
  | [] => 0
  | SimdEvent.write n :: r => n + totalWrites r
  | SimdEvent.poll _ :: r => totalWrites r

/-! ## Tile states and the per-frame render pass (`mandel_texture.rs`) -/

/-- `enum TileState`: the four states of a tile.  The job handle is modelled by
an identifier, the staging buffer by its byte contents. -/
inductive TileState
  | Idle
  | Computing (task_handle : ℕ)
  | WaitForUpload (buffer : List ℕ)
  | Ready
deriving DecidableEq

/-- The body of the per-tile closure in `upload_tiles`: on `WaitForUpload` the
buffer is taken out and the state becomes `Ready`; every other state is left
alone and nothing is uploaded. -/
def uploadTile (s : TileState) : TileState × Option (List ℕ) :=
  match s with
  | TileState.WaitForUpload buffer => (TileState.Ready, some buffer)
  | s => (s, none)

/-- Observable GPU-queue events of one `render` frame. -/
inductive RenderEvent
  | submit_blit
  | write_texture (tile_index : ℕ)
  | submit_surface
deriving DecidableEq

/-- The state of `MandelTexture` relevant to the render pass.  GPU objects
(textures, views, bind groups) are modelled by identifiers; `frame_changed` is
the pending-blit flag. -/
structure MandelTexture where
  texture1 : ℕ
  texture2 : ℕ
  texture1_view : ℕ
  texture2_view : ℕ
  bind_group1 : ℕ
  bind_group2 : ℕ
  frame_changed : Bool
  fractal_rect : DRect
  fractal_rect_prev : DRect
  tiles : List TileState

/-- `blit_textures`: nothing when no transition is pending; otherwise submit the
blit, swap texture/view/bind-group pairs, clear the flag and set
`fractal_rect_prev = fractal_rect`. -/
def blit_textures (m : MandelTexture) : MandelTexture × List RenderEvent :=
  if m.frame_changed = false then (m, [])
  else
    ({ m with
        texture1 := m.texture2, texture2 := m.texture1,
        texture1_view := m.texture2_view, texture2_view := m.texture1_view,
        bind_group1 := m.bind_group2, bind_group2 := m.bind_group1,
        frame_changed := false,
        fractal_rect_prev := m.fractal_rect },
     [RenderEvent.submit_blit])

/-- `upload_tiles` over the tile list starting at tile index `i`: apply
`uploadTile` to each tile, emitting a `write_texture` for each taken buffer. -/
def uploadTilesGo : ℕ → List TileState → List TileState × List RenderEvent
  | _, [] => ([], [])
  | i, t :: ts =>
    let u := uploadTile t
    let rest := uploadTilesGo (i + 1) ts
    (u.1 :: rest.1,
     (match u.2 with
      | some _ => [RenderEvent.write_texture i]
      | none => []) ++ rest.2)

/-- `upload_tiles`. -/
def upload_tiles (m : MandelTexture) : MandelTexture × List RenderEvent :=
  let r := uploadTilesGo 0 m.tiles
  ({ m with tiles := r.1 }, r.2)

/-- `render`: blit, then tile uploads, then the surface draw submit. -/
def MandelTexture.render (m : MandelTexture) : MandelTexture × List RenderEvent :=
  let b := blit_textures m
  let u := upload_tiles b.1
  (u.1, b.2 ++ u.2 ++ [RenderEvent.submit_surface])

/-! ## Viewport / cache-rectangle update (`MandelTexture::update`, claim C5) -/

/-- `DVec2::length_squared`. -/
def DVec2.length_squared (v : DVec2) : ℚ := v.x * v.x + v.y * v.y

/-- Modelled from the spec: `RectF64::contains` is not present under `src`
(`math.rs` lacks the rectangle types); spec 4.1 says `contains` (strict ⊇) uses
`≤` on lower and upper bounds of half-open rectangles. -/
def DRect.contains (a b : DRect) : Bool :=
  decide (a.pos.x ≤ b.pos.x) && decide (a.pos.y ≤ b.pos.y) &&
  decide (b.pos.x + b.size.x ≤ a.pos.x + a.size.x) &&
  decide (b.pos.y + b.size.y ≤ a.pos.y + a.size.y)

/-- Modelled from the spec: `RectF64::center` is not present under `src`;
spec 8 fixes `from_pos_size(p, s).center() = p + s/2`. -/
def DRect.center (r : DRect) : DVec2 :=
  ⟨r.pos.x + r.size.x / 2, r.pos.y + r.size.y / 2⟩

/-- Modelled from the spec: `RectF64::from_center_size` is not present under
`src`; spec 8 fixes `from_center_size(c, s).center() = c` with size `s`. -/
def DRect.from_center_size (c s : DVec2) : DRect :=
  ⟨⟨c.x - s.x / 2, c.y - s.y / 2⟩, s⟩

/-- The fields of `MandelTexture` read and written by the cache-rectangle part
of `update` (lines 386-400 of `mandel_texture.rs`). -/
structure TexRectState where
  window_size : UVec2
  texture_size : ℕ
  frame_rect : DRect
  fractal_rect : DRect
  fractal_rect_prev : DRect
  fractal_scale : ℚ
  frame_changed : Bool
deriving DecidableEq

/-- The cache-rectangle part of `MandelTexture::update`: store the viewport,
detect a scale or containment change, and on change remember the previous cache
rectangle and recenter the cache on the viewport with both components of its
size equal to `frame_rect.size.x * texture_size / window_size.x`. -/
def MandelTexture.update_rect (m : TexRectState) (frame_rect : DRect) : TexRectState :=
  let m := { m with frame_rect := frame_rect }
  let scale_changed : Bool := !(decide (frame_rect.size.length_squared = m.fractal_scale))
  let off_frame : Bool := !(m.fractal_rect.contains frame_rect)
  let frame_changed : Bool := off_frame || scale_changed
  if frame_changed then
    { m with
      frame_changed := true,
      fractal_rect_prev := m.fractal_rect,
      fractal_scale := frame_rect.size.length_squared,
      fractal_rect := DRect.from_center_size frame_rect.center
        ⟨frame_rect.size.x * (m.texture_size : ℚ) / (m.window_size.x : ℚ),
         frame_rect.size.x * (m.texture_size : ℚ) / (m.window_size.x : ℚ)⟩ }
  else m

/-! ## View controller scroll/drag math (`TiledFractalApp::move_scale`, claim C8) -/

/-- 2D vector of reals (the `powf` zoom factor forces the real model here). -/
structure Vec2R where
  x : ℝ
  y : ℝ

/-- The offset/scale state of `TiledFractalApp` touched by `move_scale`. -/
structure AppView where
  final_offset : Vec2R
  final_scale : ℝ
  draft_offset : Vec2R
  draft_scale : ℝ

/-- `TiledFractalApp::move_scale`: flip the pointer's y, normalize by the
window size, compute `zoom = 1.15.powf(scroll_delta / 5.0)`, and update the
final and draft offset/scale pairs exactly as the source does. -/
noncomputable def move_scale (window_size : Vec2R) (a : AppView)
    (mouse_pos mouse_delta : Vec2R) (scroll_delta : ℝ) : AppView :=
  let mouse_pos := Vec2R.mk mouse_pos.x (window_size.y - mouse_pos.y)
  let mouse_pos_f := Vec2R.mk (mouse_pos.x / window_size.x) (mouse_pos.y / window_size.y)
  let mouse_delta := Vec2R.mk mouse_delta.x (-mouse_delta.y)
  let zoom : ℝ := (1.15 : ℝ) ^ (scroll_delta / 5)
  let new_final_scale := a.final_scale * zoom
  let new_final_offset := Vec2R.mk
    (mouse_delta.x * new_final_scale + a.final_offset.x)
    (mouse_delta.y * new_final_scale + a.final_offset.y)
  let mouse_pos_n := Vec2R.mk (mouse_pos_f.x * 2 - 1) (mouse_pos_f.y * 2 - 1)
  let new_draft_scale := a.draft_scale * zoom
  let new_draft_offset := Vec2R.mk
    (2 * mouse_delta.x * new_draft_scale + a.draft_offset.x
      - mouse_pos_n.x * (new_draft_scale - a.draft_scale))
    (2 * mouse_delta.y * new_draft_scale + a.draft_offset.y
      - mouse_pos_n.y * (new_draft_scale - a.draft_scale))
  { final_offset := new_final_offset, final_scale := new_final_scale,
    draft_offset := new_draft_offset, draft_scale := new_draft_scale }

/-- The `Event::MouseWheel` arm of `TiledFractalApp::update`:
`move_scale(position, Vec2i32::zeroed(), delta)`. -/
noncomputable def on_mouse_wheel (window_size : Vec2R) (a : AppView)
    (position : Vec2R) (delta : ℝ) : AppView :=
  move_scale window_size a position (Vec2R.mk 0 0) delta

/-! ## Buffer pool (`buffer_pool.rs`, claim C9) -/

/-- `BufferPoolInner`: the configured buffer size, the stack of available
buffers (`Vec<Vec<u8>>`, top of the stack at the head) and the allocation
counter. -/
structure PoolState where
  buf_size : ℕ
  available : List (List ℕ)
  total_allocated : ℕ
deriving DecidableEq

/-- `BufferPool::new`: pre-allocates `reserved_count` zero-filled buffers and
counts them as allocated. -/
def BufferPool.new (buf_size reserved_count : ℕ) : PoolState :=
  { buf_size := buf_size,
    available := List.replicate reserved_count (List.replicate buf_size 0),
    total_allocated := reserved_count }

/-- `BufferPool::take`: pop an available buffer, or allocate a fresh zero-filled
one (bumping the allocation counter) when the stack is empty. -/
def BufferPool.take (p : PoolState) : PoolState × List ℕ :=
  match p.available with
  | [] => ({ p with total_allocated := p.total_allocated + 1 },
           List.replicate p.buf_size 0)
  | b :: rest => ({ p with available := rest }, b)

/-- `Drop for BufferHandle` (with the pool still alive): push the buffer back
onto the availability stack. -/
def BufferHandle.drop (p : PoolState) (b : List ℕ) : PoolState :=
  { p with available := b :: p.available }

/-- `BufferPool::taken_buffer_count` (the spec's `outstanding()`):
allocated minus available. -/
def taken_buffer_count (p : PoolState) : ℕ :=
  p.total_allocated - p.available.length

/-- `n` successive `take` calls with no intervening drops, returning the final
pool state and the list of handed-out buffers. -/
def takeN : ℕ → PoolState → PoolState × List (List ℕ)
  | 0, p => (p, [])
  | n + 1, p =>
    let t := BufferPool.take p
    let r := takeN n t.1
    (r.1, t.2 :: r.2)

/-! ## Write-pattern lemmas for the compute loop -/

theorem foldl_set_length (l : List (Fin 8)) (s : ℕ) (v : Lane Pixel) (b : List Pixel) :
    (l.foldl (fun acc j => acc.set (s + (j : ℕ)) (v j)) b).length = b.length := by
  induction l generalizing b with
  | nil => rfl
  | cons a l ih => rw [List.foldl_cons, ih, List.length_set]

theorem foldl_set_getElem_ne (l : List (Fin 8)) (s : ℕ) (v : Lane Pixel) (b : List Pixel)
    (i : ℕ) (h : ∀ j ∈ l, s + (j : ℕ) ≠ i) :
    (l.foldl (fun acc j => acc.set (s + (j : ℕ)) (v j)) b)[i]? = b[i]? := by
  induction l generalizing b with
  | nil => rfl
  | cons a l ih =>
    rw [List.foldl_cons, ih _ (fun j hj => h j (List.mem_cons_of_mem a hj)),
      List.getElem?_set_ne (h a (List.mem_cons_self a l))]

theorem foldl_set_getElem_mem (l : List (Fin 8)) (s : ℕ) (v : Lane Pixel) (b : List Pixel)
    (j : Fin 8) (hmem : j ∈ l) (hnd : l.Nodup) (h : s + (j : ℕ) < b.length) :
    (l.foldl (fun acc j => acc.set (s + (j : ℕ)) (v j)) b)[s + (j : ℕ)]? = some (v j) := by
  induction l generalizing b with
  | nil => cases hmem
  | cons a l ih =>
    rw [List.nodup_cons] at hnd
    rw [List.foldl_cons]
    rcases List.mem_cons.mp hmem with hja | hjl
    · subst hja
      rw [foldl_set_getElem_ne _ _ _ _ _ ?hne, List.getElem?_set_eq_of_lt _ h]
      case hne =>
        intro j2 hj2 hcontra
        have hval : (j2 : ℕ) = (j : ℕ) := Nat.add_left_cancel hcontra
        have hj2j : j2 = j := Fin.val_injective hval
        exact hnd.1 (hj2j ▸ hj2)
    · exact ih (b.set (s + (a : ℕ)) (v a)) hjl hnd.2 (by rw [List.length_set]; exact h)

theorem writeBlock_length (b : List Pixel) (s : ℕ) (v : Lane Pixel) :
    (writeBlock b s v).length = b.length := by
  unfold writeBlock
  exact foldl_set_length (List.finRange 8) s v b

theorem writeBlock_getElem_ne (b : List Pixel) (s : ℕ) (v : Lane Pixel) (i : ℕ)
    (h : ∀ k : ℕ, k < 8 → s + k ≠ i) :
    (writeBlock b s v)[i]? = b[i]? := by
  unfold writeBlock
  exact foldl_set_getElem_ne (List.finRange 8) s v b i (fun j _ => h j j.isLt)

theorem writeBlock_getElem_at (b : List Pixel) (s : ℕ) (v : Lane Pixel)
    (j : Fin 8) (h : s + (j : ℕ) < b.length) :
    (writeBlock b s v)[s + (j : ℕ)]? = some (v j) := by
  unfold writeBlock
  exact foldl_set_getElem_mem (List.finRange 8) s v b j (List.mem_finRange j)
    (List.nodup_finRange 8) h

theorem row_addr_inj (n a b c d : ℕ) (hb : b < n) (hd : d < n)
    (h : a * n + b = c * n + d) : a = c ∧ b = d := by
  have hn : 0 < n := Nat.lt_of_le_of_lt (Nat.zero_le b) hb
  constructor
  · have ha : (a * n + b) / n = a := by
      rw [Nat.mul_comm a n, Nat.mul_add_div hn, Nat.div_eq_of_lt hb, Nat.add_zero]
    have hc : (c * n + d) / n = c := by
      rw [Nat.mul_comm c n, Nat.mul_add_div hn, Nat.div_eq_of_lt hd, Nat.add_zero]
    rw [← ha, ← hc, h]
  · have ha : (a * n + b) % n = b := by
      rw [Nat.mul_comm a n, Nat.mul_add_mod, Nat.mod_eq_of_lt hb]
    have hc : (c * n + d) % n = d := by
      rw [Nat.mul_comm c n, Nat.mul_add_mod, Nat.mod_eq_of_lt hd]
    rw [← ha, ← hc, h]

theorem stepBlock_frozen (p : SimdParams) (c : ℕ → Bool) (y x : ℕ) (st : SimdState)
    (h : st.cancelled = true) : stepBlock p c y x st = st := by
  simp [stepBlock, h]

theorem xLoop_frozen (p : SimdParams) (c : ℕ → Bool) (y : ℕ) :
    ∀ n x (st : SimdState), st.cancelled = true → xLoop p c y n x st = st
  | 0, _, _, _ => rfl
  | n + 1, x, st, h => by
    rw [xLoop, stepBlock_frozen p c y x st h, xLoop_frozen p c y n (x + 1) st h]

theorem yLoop_frozen (p : SimdParams) (c : ℕ → Bool) :
    ∀ n y (st : SimdState), st.cancelled = true → yLoop p c n y st = st
  | 0, _, _, _ => rfl
  | n + 1, y, st, h => by
    rw [yLoop, xLoop_frozen p c y _ 0 st h, yLoop_frozen p c n (y + 1) st h]

theorem stepBlock_cancelled_mono (p : SimdParams) (c : ℕ → Bool) (y x : ℕ) (st : SimdState)
    (h : (stepBlock p c y x st).cancelled = false) : st.cancelled = false := by
  cases hc : st.cancelled with
  | false => rfl
  | true => rw [stepBlock_frozen p c y x st hc] at h; simp [hc] at h

theorem xLoop_cancelled_mono (p : SimdParams) (c : ℕ → Bool) (y : ℕ) :
    ∀ n x (st : SimdState), (xLoop p c y n x st).cancelled = false → st.cancelled = false
  | 0, _, _, h => h
  | n + 1, x, st, h =>
    stepBlock_cancelled_mono p c y x st (xLoop_cancelled_mono p c y n (x + 1) _ h)

theorem yLoop_cancelled_mono (p : SimdParams) (c : ℕ → Bool) :
    ∀ n y (st : SimdState), (yLoop p c n y st).cancelled = false → st.cancelled = false
  | 0, _, _, h => h
  | n + 1, y, st, h =>
    xLoop_cancelled_mono p c y _ 0 st (yLoop_cancelled_mono p c n (y + 1) _ h)

theorem stepBlock_nc_buffer (p : SimdParams) (c : ℕ → Bool) (y x : ℕ) (st : SimdState)
    (h : (stepBlock p c y x st).cancelled = false) :
    (stepBlock p c y x st).buffer =
      writeBlock st.buffer (y * p.tile_rect.size.x + x * SIMD_LANE_COUNT)
        (pixel p.max_iterations (cxLane p x) (cyLane p y)) := by
  have hst := stepBlock_cancelled_mono p c y x st h
  by_cases hpoll : (x * SIMD_LANE_COUNT) % 32 = 0
  · by_cases hc : c st.polls = true
    · exfalso
      simp [stepBlock, hst, hpoll, hc] at h
    · simp only [Bool.not_eq_true] at hc
      simp [stepBlock, hst, hpoll, hc]
  · simp [stepBlock, hst, hpoll]

theorem stepBlock_buffer_length (p : SimdParams) (c : ℕ → Bool) (y x : ℕ) (st : SimdState) :
    (stepBlock p c y x st).buffer.length = st.buffer.length := by
  simp only [stepBlock]
  split_ifs <;> simp [writeBlock_length]

theorem xLoop_buffer_length (p : SimdParams) (c : ℕ → Bool) (y : ℕ) :
    ∀ n x (st : SimdState), (xLoop p c y n x st).buffer.length = st.buffer.length
  | 0, _, _ => rfl
  | n + 1, x, st => by
    rw [xLoop, xLoop_buffer_length p c y n (x + 1) _, stepBlock_buffer_length]

theorem yLoop_buffer_length (p : SimdParams) (c : ℕ → Bool) :
    ∀ n y (st : SimdState), (yLoop p c n y st).buffer.length = st.buffer.length
  | 0, _, _ => rfl
  | n + 1, y, st => by
    rw [yLoop, yLoop_buffer_length p c n (y + 1) _, xLoop_buffer_length]

theorem simdRun_buffer_length (p : SimdParams) (c : ℕ → Bool) :
    (simdRun p c).buffer.length = 2 * (p.tile_rect.size.x * p.tile_rect.size.y) := by
  rw [simdRun, yLoop_buffer_length]
  simp [initSimdState]

theorem stepBlock_getElem_ne (p : SimdParams) (c : ℕ → Bool) (y x : ℕ) (st : SimdState)
    (i : ℕ) (h : ∀ k : ℕ, k < 8 → i ≠ y * p.tile_rect.size.x + x * 8 + k) :
    (stepBlock p c y x st).buffer[i]? = st.buffer[i]? := by
  simp only [stepBlock]
  split_ifs <;> try rfl
  all_goals
    exact writeBlock_getElem_ne _ _ _ i (fun k hk => Ne.symm (h k hk))

theorem xLoop_getElem_ne (p : SimdParams) (c : ℕ → Bool) (y : ℕ) :
    ∀ n x (st : SimdState) (i : ℕ),
      (∀ k : ℕ, k < n → ∀ j : ℕ, j < 8 → i ≠ y * p.tile_rect.size.x + (x + k) * 8 + j) →
      (xLoop p c y n x st).buffer[i]? = st.buffer[i]?
  | 0, _, _, _, _ => rfl
  | n + 1, x, st, i, h => by
    rw [xLoop, xLoop_getElem_ne p c y n (x + 1) _ i ?hrest]
    case hrest =>
      intro k hk j hj
      have hx := h (k + 1) (by omega) j hj
      have harith : (x + (k + 1)) * 8 = (x + 1 + k) * 8 := by ring
      rw [harith] at hx
      exact hx
    exact stepBlock_getElem_ne p c y x st i (fun k hk => by
      have hx := h 0 (by omega) k hk
      simpa using hx)

theorem yLoop_getElem_ne (p : SimdParams) (c : ℕ → Bool) :
    ∀ n y (st : SimdState) (i : ℕ),
      (∀ r : ℕ, r < n → ∀ k : ℕ, k < p.tile_rect.size.x / 8 → ∀ j : ℕ, j < 8 →
        i ≠ (y + r) * p.tile_rect.size.x + k * 8 + j) →
      (yLoop p c n y st).buffer[i]? = st.buffer[i]?
  | 0, _, _, _, _ => rfl
  | n + 1, y, st, i, h => by
    rw [yLoop, yLoop_getElem_ne p c n (y + 1) _ i ?hrest]
    case hrest =>
      intro r hr k hk j hj
      have hx := h (r + 1) (by omega) k hk j hj
      have harith : y + (r + 1) = y + 1 + r := by omega
      rw [harith] at hx
      exact hx
    exact xLoop_getElem_ne p c y _ 0 st i (fun k hk j hj => by
      have hx := h 0 (by omega) k ?_ j hj
      · simpa using hx
      · simpa [SIMD_LANE_COUNT] using hk)

theorem xLoop_getElem_written (p : SimdParams) (c : ℕ → Bool) (y : ℕ) :
    ∀ n x (st : SimdState), (xLoop p c y n x st).cancelled = false →
      ∀ k : ℕ, k < n → ∀ j : Fin 8,
        y * p.tile_rect.size.x + (x + k) * 8 + (j : ℕ) < st.buffer.length →
        (xLoop p c y n x st).buffer[y * p.tile_rect.size.x + (x + k) * 8 + (j : ℕ)]? =
          some (pixel p.max_iterations (cxLane p (x + k)) (cyLane p y) j)
  | 0, _, _, _, k, hk, _, _ => absurd hk (by omega)
  | n + 1, x, st, hnc, k, hk, j, hlen => by
    rw [xLoop] at hnc ⊢
    have hst1nc : (stepBlock p c y x st).cancelled = false :=
      xLoop_cancelled_mono p c y n (x + 1) _ hnc
    cases k with
    | zero =>
      rw [xLoop_getElem_ne p c y n (x + 1) _ _ ?hrest]
      case hrest =>
        intro k2 hk2 j2 hj2
        have hj8 : (j : ℕ) < 8 := j.isLt
        set base := y * p.tile_rect.size.x with hbase
        omega
      rw [stepBlock_nc_buffer p c y x st hst1nc]
      have hgoal := writeBlock_getElem_at st.buffer
        (y * p.tile_rect.size.x + x * SIMD_LANE_COUNT)
        (pixel p.max_iterations (cxLane p x) (cyLane p y)) j ?hlen2
      case hlen2 =>
        simpa [SIMD_LANE_COUNT, Nat.add_assoc] using hlen
      simpa [SIMD_LANE_COUNT, Nat.add_assoc] using hgoal
    | succ k =>
      have harith : x + (k + 1) = x + 1 + k := by omega
      rw [harith]
      exact xLoop_getElem_written p c y n (x + 1) _ hnc k (by omega) j
        (by rw [stepBlock_buffer_length]; rw [← harith]; exact hlen)

theorem yLoop_getElem_written (p : SimdParams) (c : ℕ → Bool) :
    ∀ n y (st : SimdState), (yLoop p c n y st).cancelled = false →
      ∀ r : ℕ, r < n → ∀ k : ℕ, k < p.tile_rect.size.x / 8 → ∀ j : Fin 8,
        (y + r) * p.tile_rect.size.x + k * 8 + (j : ℕ) < st.buffer.length →
        (yLoop p c n y st).buffer[(y + r) * p.tile_rect.size.x + k * 8 + (j : ℕ)]? =
          some (pixel p.max_iterations (cxLane p k) (cyLane p (y + r)) j)
  | 0, _, _, _, r, hr, _, _, _, _ => absurd hr (by omega)
  | n + 1, y, st, hnc, r, hr, k, hk, j, hlen => by
    rw [yLoop] at hnc ⊢
    have hrownc : (xLoop p c y (p.tile_rect.size.x / SIMD_LANE_COUNT) 0 st).cancelled = false :=
      yLoop_cancelled_mono p c n (y + 1) _ hnc
    cases r with
    | zero =>
      rw [yLoop_getElem_ne p c n (y + 1) _ _ ?hrest]
      case hrest =>
        intro r2 hr2 k2 hk2 j2 hj2
        have hj8 : (j : ℕ) < 8 := j.isLt
        have hkx : k * 8 + (j : ℕ) < p.tile_rect.size.x := by
          have := Nat.div_mul_le_self p.tile_rect.size.x 8
          omega
        have hk2x : k2 * 8 + j2 < p.tile_rect.size.x := by
          have := Nat.div_mul_le_self p.tile_rect.size.x 8
          omega
        intro heq
        have hdec := row_addr_inj p.tile_rect.size.x (y + 0) (k * 8 + (j : ℕ))
          (y + 1 + r2) (k2 * 8 + j2) hkx hk2x ?heq2
        case heq2 =>
          set a := (y + 0) * p.tile_rect.size.x with ha
          set b := (y + 1 + r2) * p.tile_rect.size.x with hb
          omega
        omega
      have hwr := xLoop_getElem_written p c y (p.tile_rect.size.x / SIMD_LANE_COUNT) 0 st
        hrownc k ?hkdiv j ?hlen2
      case hkdiv => simpa [SIMD_LANE_COUNT] using hk
      case hlen2 => simpa using hlen
      simpa using hwr
    | succ r =>
      have harith : y + (r + 1) = y + 1 + r := by omega
      rw [harith]
      exact yLoop_getElem_written p c n (y + 1) _ hnc r (by omega) k hk j
        (by rw [xLoop_buffer_length]; rw [← harith]; exact hlen)

theorem simdRun_getElem_written (p : SimdParams) (c : ℕ → Bool)
    (hnc : (simdRun p c).cancelled = false)
    (y : ℕ) (hy : y < p.tile_rect.size.y)
    (k : ℕ) (hk : k < p.tile_rect.size.x / 8) (j : Fin 8) :
    (simdRun p c).buffer[y * p.tile_rect.size.x + k * 8 + (j : ℕ)]? =
      some (pixel p.max_iterations (cxLane p k) (cyLane p y) j) := by
  rw [simdRun] at hnc ⊢
  have hlen : (y + 0 ≠ y) ∨ True := Or.inr trivial
  have hwr := yLoop_getElem_written p c p.tile_rect.size.y 0 (initSimdState p) hnc y
    (by omega) k hk j ?hlen2
  case hlen2 =>
    simp only [initSimdState, List.length_replicate]
    have hj8 : (j : ℕ) < 8 := j.isLt
    have hkx : k * 8 + (j : ℕ) < p.tile_rect.size.x := by
      have := Nat.div_mul_le_self p.tile_rect.size.x 8
      omega
    have hys : (0 + y) * p.tile_rect.size.x + p.tile_rect.size.x ≤
        p.tile_rect.size.y * p.tile_rect.size.x := by
      have : 0 + y + 1 ≤ p.tile_rect.size.y := by omega
      calc (0 + y) * p.tile_rect.size.x + p.tile_rect.size.x
          = (0 + y + 1) * p.tile_rect.size.x := by ring
        _ ≤ p.tile_rect.size.y * p.tile_rect.size.x :=
            Nat.mul_le_mul_right _ this
    have hcomm : p.tile_rect.size.y * p.tile_rect.size.x =
        p.tile_rect.size.x * p.tile_rect.size.y := by ring
    set q := p.tile_rect.size.x * p.tile_rect.size.y with hq
    omega
  simpa using hwr

theorem simdRun_getElem_untouched (p : SimdParams) (c : ℕ → Bool)
    (y xx : ℕ) (hy : y < p.tile_rect.size.y)
    (hxlo : p.tile_rect.size.x / 8 * 8 ≤ xx) (hxhi : xx < p.tile_rect.size.x) :
    (simdRun p c).buffer[y * p.tile_rect.size.x + xx]? = some ⟨0⟩ := by
  rw [simdRun]
  rw [yLoop_getElem_ne p c p.tile_rect.size.y 0 (initSimdState p) _ ?hne]
  case hne =>
    intro r hr k hk j hj
    intro heq
    have hk2x : k * 8 + j < p.tile_rect.size.x := by
      have := Nat.div_mul_le_self p.tile_rect.size.x 8
      omega
    have hdec := row_addr_inj p.tile_rect.size.x y xx (0 + r) (k * 8 + j)
      hxhi hk2x ?heq2
    case heq2 =>
      set a := y * p.tile_rect.size.x with ha
      set b := (0 + r) * p.tile_rect.size.x with hb
      omega
    omega
  simp only [initSimdState]
  rw [List.getElem?_eq_getElem ?hin]
  case hin =>
    simp only [List.length_replicate]
    have hys : (y + 1) * p.tile_rect.size.x ≤
        p.tile_rect.size.y * p.tile_rect.size.x :=
      Nat.mul_le_mul_right _ (by omega)
    have hcomm : p.tile_rect.size.y * p.tile_rect.size.x =
        p.tile_rect.size.x * p.tile_rect.size.y := by ring
    have hlt : y * p.tile_rect.size.x + xx < (y + 1) * p.tile_rect.size.x := by
      have : (y + 1) * p.tile_rect.size.x = y * p.tile_rect.size.x + p.tile_rect.size.x := by
        ring
      omega
    set q := p.tile_rect.size.x * p.tile_rect.size.y with hq
    omega
  simp [List.getElem_replicate]

theorem mandelbrot_simd_ok (p : SimdParams) (c : ℕ → Bool) (buf : List Pixel)
    (h : mandelbrot_simd p c = Except.ok buf) :
    (simdRun p c).cancelled = false ∧ (simdRun p c).buffer = buf := by
  unfold mandelbrot_simd at h
  by_cases hc : (simdRun p c).cancelled = true
  · rw [if_pos hc] at h; cases h
  · rw [if_neg hc] at h
    exact ⟨Bool.not_eq_true _ ▸ hc, Except.ok.inj h⟩

theorem cxLane_eq (p : SimdParams) (x : ℕ) (hx : p.tile_rect.size.x ≠ 0) (j : Fin 8) :
    cxLane p x j = c_amended_x p (x * 8 + (j : ℕ)) := by
  have hsx : ((p.tile_rect.size.x : ℕ) : ℚ) ≠ 0 := Nat.cast_ne_zero.mpr hx
  unfold cxLane c_amended_x buffer_frame DRect.from_pos_size CX_INIT SIMD_LANE_COUNT
  simp only
  have h1 : ((p.tile_rect.size.x : ℚ) / (p.image_size : ℚ)) / p.fractal_scale
        / (p.tile_rect.size.x : ℚ)
      = 1 / (p.image_size : ℚ) / p.fractal_scale := by
    rw [div_right_comm ((p.tile_rect.size.x : ℚ) / (p.image_size : ℚ))
        p.fractal_scale (p.tile_rect.size.x : ℚ),
      div_right_comm (p.tile_rect.size.x : ℚ) (p.image_size : ℚ) (p.tile_rect.size.x : ℚ),
      div_self hsx]
  push_cast
  rw [h1]
  ring

theorem cyLane_eq (p : SimdParams) (y : ℕ) (hy : p.tile_rect.size.y ≠ 0) (j : Fin 8) :
    cyLane p y j = c_spec_y p y := by
  have hsy : ((p.tile_rect.size.y : ℕ) : ℚ) ≠ 0 := Nat.cast_ne_zero.mpr hy
  unfold cyLane c_spec_y buffer_frame DRect.from_pos_size
  simp only
  have h1 : ((p.tile_rect.size.y : ℚ) / (p.image_size : ℚ)) / p.fractal_scale
        / (p.tile_rect.size.y : ℚ)
      = 1 / (p.image_size : ℚ) / p.fractal_scale := by
    rw [div_right_comm ((p.tile_rect.size.y : ℚ) / (p.image_size : ℚ))
        p.fractal_scale (p.tile_rect.size.y : ℚ),
      div_right_comm (p.tile_rect.size.y : ℚ) (p.image_size : ℚ) (p.tile_rect.size.y : ℚ),
      div_self hsy]
  have h2 : (p.tile_rect.size.y : ℚ) / (p.image_size : ℚ) / p.fractal_scale
        * ((y : ℚ) / (p.tile_rect.size.y : ℚ))
      = ((p.tile_rect.size.y : ℚ) / (p.image_size : ℚ) / p.fractal_scale
          / (p.tile_rect.size.y : ℚ)) * (y : ℚ) := by
    ring
  rw [h2, h1]
  ring

/-- C4 counterexample: on a 1x1 tile the compute entry point returns `Ok` with
a buffer of 2 pixels, not `tex_rect.area() = 1` pixels: the source allocates
`vec![Pixel::default(); 2 * size.x * size.y]`. -/
theorem claim_c4_cex :
    mandelbrot_simd
        { image_size := 1, tile_rect := ⟨⟨0, 0⟩, ⟨1, 1⟩⟩,
          fractal_offset := ⟨0, 0⟩, fractal_scale := 1, max_iterations := 1 }
        (fun _ => false) =
      Except.ok [Pixel.mk 0, Pixel.mk 0] ∧
    ([Pixel.mk 0, Pixel.mk 0].length ≠ URect.area ⟨⟨0, 0⟩, ⟨1, 1⟩⟩) := by
  constructor
  · rfl
  · decide

/-- C4 (amended): every `Ok` return of the compute entry point carries a pixel
buffer of exactly `2 * tex_rect.area()` 16-bit pixels (twice the claimed
`tex_rect.area()`). -/
theorem claim_c4 (p : SimdParams) (c : ℕ → Bool) (buf : List Pixel)
    (h : mandelbrot_simd p c = Except.ok buf) :
    buf.length = 2 * URect.area p.tile_rect := by
  obtain ⟨hnc, hbuf⟩ := mandelbrot_simd_ok p c buf h
  rw [← hbuf, simdRun_buffer_length, URect.area]

/-- Witness for C4 at a concrete 1x1 tile. -/
theorem claim_c4_witness :
    ([Pixel.mk 0, Pixel.mk 0] : List Pixel).length =
      2 * URect.area ⟨⟨0, 0⟩, ⟨1, 1⟩⟩ :=
  claim_c4
    { image_size := 1, tile_rect := ⟨⟨0, 0⟩, ⟨1, 1⟩⟩,
      fractal_offset := ⟨0, 0⟩, fractal_scale := 1, max_iterations := 1 }
    (fun _ => false) [Pixel.mk 0, Pixel.mk 0] rfl

/-- C10: when the tile width is not a multiple of the SIMD lane count 8, the
trailing `size.x mod 8` cells of every row of an `Ok` output buffer are never
written by the compute loop and keep their initial value 0. -/
theorem claim_c10 (p : SimdParams) (c : ℕ → Bool) (buf : List Pixel)
    (h : mandelbrot_simd p c = Except.ok buf)
    (hmod : p.tile_rect.size.x % 8 ≠ 0)
    (y : ℕ) (hy : y < p.tile_rect.size.y)
    (xx : ℕ) (hlo : p.tile_rect.size.x / 8 * 8 ≤ xx) (hhi : xx < p.tile_rect.size.x) :
    buf[y * p.tile_rect.size.x + xx]? = some (Pixel.mk 0) := by
  obtain ⟨hnc, hbuf⟩ := mandelbrot_simd_ok p c buf h
  rw [← hbuf]
  exact simdRun_getElem_untouched p c y xx hy hlo hhi

/-- Witness for C10 on a 9x1 tile: the 9th cell of the row is still 0. -/
theorem claim_c10_witness :
    (List.replicate 18 (Pixel.mk 0))[8]? = some (Pixel.mk 0) :=
  claim_c10
    { image_size := 1, tile_rect := ⟨⟨0, 0⟩, ⟨9, 1⟩⟩,
      fractal_offset := ⟨0, 0⟩, fractal_scale := 1, max_iterations := 0 }
    (fun _ => false) (List.replicate 18 (Pixel.mk 0)) rfl
    (by decide) 0 (by decide) 8 (by decide) (by decide)

/-- C1 counterexample: with `image_size = 1`, tile at the origin, unit scale
and zero offset, the x component of the parameter actually fed to the
iteration for pixel (0,0) is `-1.24 = c_spec - 0.74`, not the claimed
`c_spec = -0.5`: the source shifts `fractal_offset.x` by `0.74`. -/
theorem claim_c1_cex :
    cxLane
        { image_size := 1, tile_rect := ⟨⟨0, 0⟩, ⟨8, 1⟩⟩,
          fractal_offset := ⟨0, 0⟩, fractal_scale := 1, max_iterations := 1 }
        0 0 =
      c_spec_x
        { image_size := 1, tile_rect := ⟨⟨0, 0⟩, ⟨8, 1⟩⟩,
          fractal_offset := ⟨0, 0⟩, fractal_scale := 1, max_iterations := 1 } 0
        - 0.74 ∧
    cxLane
        { image_size := 1, tile_rect := ⟨⟨0, 0⟩, ⟨8, 1⟩⟩,
          fractal_offset := ⟨0, 0⟩, fractal_scale := 1, max_iterations := 1 }
        0 0 ≠
      c_spec_x
        { image_size := 1, tile_rect := ⟨⟨0, 0⟩, ⟨8, 1⟩⟩,
          fractal_offset := ⟨0, 0⟩, fractal_scale := 1, max_iterations := 1 } 0 := by
  constructor <;>
    norm_num [cxLane, c_spec_x, buffer_frame, DRect.from_pos_size, CX_INIT, SIMD_LANE_COUNT]

/-- C1 (amended): for every `Ok` run and every pixel the compute loop produces,
the complex parameter fed to the iteration is
`((tex_rect.pos + (x,y))/image_size - 0.5)/fractal_scale - (fractal_offset + (0.74, 0))`,
i.e. the claimed map with the source's extra `0.74` shift on the x offset. -/
theorem claim_c1 (p : SimdParams) (c : ℕ → Bool) (buf : List Pixel)
    (h : mandelbrot_simd p c = Except.ok buf)
    (y : ℕ) (hy : y < p.tile_rect.size.y)
    (x : ℕ) (hx : x < p.tile_rect.size.x / 8) (j : Fin 8) :
    buf[y * p.tile_rect.size.x + x * 8 + (j : ℕ)]? =
      some (pixel p.max_iterations
        (fun j2 => c_amended_x p (x * 8 + (j2 : ℕ)))
        (fun _ => c_spec_y p y) j) := by
  obtain ⟨hnc, hbuf⟩ := mandelbrot_simd_ok p c buf h
  rw [← hbuf]
  rw [simdRun_getElem_written p c hnc y hy x hx j]
  have hsx : p.tile_rect.size.x ≠ 0 := by
    intro hz
    rw [hz] at hx
    simp at hx
  have hsy : p.tile_rect.size.y ≠ 0 := by omega
  have hcx : cxLane p x = fun (j2 : Fin 8) => c_amended_x p (x * 8 + (j2 : ℕ)) :=
    funext (fun j2 => cxLane_eq p x hsx j2)
  have hcy : cyLane p y = fun (_ : Fin 8) => c_spec_y p y :=
    funext (fun j2 => cyLane_eq p y hsy j2)
  rw [hcx, hcy]

/-- Witness for C1 on an 8x1 tile at the origin with `max_iterations = 0`. -/
theorem claim_c1_witness :
    (List.replicate 16 (Pixel.mk 0))[0]? =
      some (pixel 0
        (fun j2 =>
          c_amended_x
            { image_size := 1, tile_rect := ⟨⟨0, 0⟩, ⟨8, 1⟩⟩,
              fractal_offset := ⟨0, 0⟩, fractal_scale := 1, max_iterations := 0 }
            (0 * 8 + (j2 : ℕ)))
        (fun _ =>
          c_spec_y
            { image_size := 1, tile_rect := ⟨⟨0, 0⟩, ⟨8, 1⟩⟩,
              fractal_offset := ⟨0, 0⟩, fractal_scale := 1, max_iterations := 0 }
            0)
        0) :=
  claim_c1
    { image_size := 1, tile_rect := ⟨⟨0, 0⟩, ⟨8, 1⟩⟩,
      fractal_offset := ⟨0, 0⟩, fractal_scale := 1, max_iterations := 0 }
    (fun _ => false) (List.replicate 16 (Pixel.mk 0)) rfl 0 (by decide) 0 (by decide) 0

/-! ## Escape-count characterization of `pixel` (claim C2) -/

theorem firstEscape_zero (c : ℚ × ℚ) : firstEscape 0 c = none := rfl

theorem endGap_append_poll (g : ℕ) (t : List SimdEvent) (b : Bool) :
    endGap g (t ++ [SimdEvent.poll b]) = 0 := by
  induction t generalizing g with
  | nil => rfl
  | cons e t ih => cases e <;> simp [endGap, ih]

theorem endGap_append_write (g : ℕ) (t : List SimdEvent) (n : ℕ) :
    endGap g (t ++ [SimdEvent.write n]) = endGap g t + n := by
  induction t generalizing g with
  | nil => rfl
  | cons e t ih => cases e <;> simp [endGap, ih]

theorem gapsOK_append_poll (g : ℕ) (t : List SimdEvent) (b : Bool) :
    gapsOK g (t ++ [SimdEvent.poll b]) = gapsOK g t := by
  induction t generalizing g with
  | nil => rfl
  | cons e t ih => cases e <;> simp [gapsOK, ih]

theorem gapsOK_append_write (g : ℕ) (t : List SimdEvent) (n : ℕ) :
    gapsOK g (t ++ [SimdEvent.write n]) =
      (gapsOK g t && decide (endGap g t + n ≤ 32)) := by
  induction t generalizing g with
  | nil => simp [gapsOK, endGap]
  | cons e t ih =>
    cases e <;> simp [gapsOK, endGap, ih] <;> rw [Bool.and_assoc]

theorem hasTruePoll_append (t : List SimdEvent) (e : SimdEvent) :
    hasTruePoll (t ++ [e]) = (hasTruePoll t || hasTruePoll [e]) := by
  simp [hasTruePoll, List.any_append]

theorem stopsAtCancel_of_no_true (t : List SimdEvent) (h : hasTruePoll t = false) :
    stopsAtCancel t = true := by
  induction t with
  | nil => rfl
  | cons e t ih =>
    cases e with
    | write n =>
      rw [show stopsAtCancel (SimdEvent.write n :: t) = stopsAtCancel t from rfl]
      exact ih (by simpa [hasTruePoll] using h)
    | poll b =>
      cases b with
      | true => simp [hasTruePoll] at h
      | false =>
        rw [show stopsAtCancel (SimdEvent.poll false :: t) = stopsAtCancel t from rfl]
        exact ih (by simpa [hasTruePoll] using h)

theorem stopsAtCancel_append_true (t : List SimdEvent) (h : hasTruePoll t = false) :
    stopsAtCancel (t ++ [SimdEvent.poll true]) = true := by
  induction t with
  | nil => rfl
  | cons e t ih =>
    cases e with
    | write n =>
      rw [List.cons_append,
        show stopsAtCancel (SimdEvent.write n :: (t ++ [SimdEvent.poll true])) =
          stopsAtCancel (t ++ [SimdEvent.poll true]) from rfl]
      exact ih (by simpa [hasTruePoll] using h)
    | poll b =>
      cases b with
      | true => simp [hasTruePoll] at h
      | false =>
        rw [List.cons_append,
          show stopsAtCancel (SimdEvent.poll false :: (t ++ [SimdEvent.poll true])) =
            stopsAtCancel (t ++ [SimdEvent.poll true]) from rfl]
        exact ih (by simpa [hasTruePoll] using h)

/-- The trace invariant maintained by the compute loop. -/
def traceOK (st : SimdState) : Prop :=
  gapsOK 0 st.trace = true ∧
  st.cancelled = hasTruePoll st.trace ∧
  stopsAtCancel st.trace = true

/-- Pixels written since the last poll at the start of block `x` of a row. -/
def gapAt (x : ℕ) (st : SimdState) : Prop :=
  st.cancelled = false → x % 4 ≠ 0 → endGap 0 st.trace = 8 * (x % 4)

theorem stepBlock_traceOK (p : SimdParams) (c : ℕ → Bool) (y x : ℕ) (st : SimdState)
    (hI : traceOK st) (hG : gapAt x st) :
    traceOK (stepBlock p c y x st) ∧ gapAt (x + 1) (stepBlock p c y x st) := by
  obtain ⟨h1, h2, h3⟩ := hI
  cases hc : st.cancelled with
  | true =>
    rw [stepBlock_frozen p c y x st hc]
    exact ⟨⟨h1, h2, h3⟩, fun hf => by rw [hc] at hf; cases hf⟩
  | false =>
    have hnt : hasTruePoll st.trace = false := by rw [← h2, hc]
    have hx4 : (x * SIMD_LANE_COUNT) % 32 = 0 ↔ x % 4 = 0 := by
      unfold SIMD_LANE_COUNT
      omega
    by_cases hp : (x * SIMD_LANE_COUNT) % 32 = 0
    · by_cases hcan : c st.polls = true
      · have hstep : stepBlock p c y x st =
            { st with cancelled := true, trace := st.trace ++ [SimdEvent.poll true] } := by
          simp [stepBlock, hc, hp, hcan]
        rw [hstep]
        refine ⟨⟨?_, ?_, ?_⟩, ?_⟩
        · show gapsOK 0 (st.trace ++ [SimdEvent.poll true]) = true
          rw [gapsOK_append_poll]
          exact h1
        · show true = hasTruePoll (st.trace ++ [SimdEvent.poll true])
          rw [hasTruePoll_append, hnt]
          rfl
        · show stopsAtCancel (st.trace ++ [SimdEvent.poll true]) = true
          exact stopsAtCancel_append_true st.trace hnt
        · intro hf
          simp at hf
      · rw [Bool.not_eq_true] at hcan
        have hstep : stepBlock p c y x st =
            { st with
              polls := st.polls + 1,
              buffer := writeBlock st.buffer
                (y * p.tile_rect.size.x + x * SIMD_LANE_COUNT)
                (pixel p.max_iterations (cxLane p x) (cyLane p y)),
              trace := (st.trace ++ [SimdEvent.poll false]) ++
                [SimdEvent.write SIMD_LANE_COUNT] } := by
          simp [stepBlock, hc, hp, hcan]
        rw [hstep]
        have hg0 : endGap 0 (st.trace ++ [SimdEvent.poll false]) = 0 :=
          endGap_append_poll 0 st.trace false
        have hnt2 : hasTruePoll ((st.trace ++ [SimdEvent.poll false]) ++
            [SimdEvent.write SIMD_LANE_COUNT]) = false := by
          rw [hasTruePoll_append, hasTruePoll_append, hnt]
          rfl
        refine ⟨⟨?_, ?_, ?_⟩, ?_⟩
        · show gapsOK 0 ((st.trace ++ [SimdEvent.poll false]) ++
            [SimdEvent.write SIMD_LANE_COUNT]) = true
          rw [show SIMD_LANE_COUNT = 8 from rfl, gapsOK_append_write, gapsOK_append_poll, h1, hg0]
          rfl
        · show st.cancelled = hasTruePoll ((st.trace ++ [SimdEvent.poll false]) ++
            [SimdEvent.write SIMD_LANE_COUNT])
          rw [hc, hnt2]
        · show stopsAtCancel ((st.trace ++ [SimdEvent.poll false]) ++
            [SimdEvent.write SIMD_LANE_COUNT]) = true
          exact stopsAtCancel_of_no_true _ hnt2
        · intro _ hmod4
          show endGap 0 ((st.trace ++ [SimdEvent.poll false]) ++
            [SimdEvent.write SIMD_LANE_COUNT]) = 8 * ((x + 1) % 4)
          rw [show SIMD_LANE_COUNT = 8 from rfl, endGap_append_write, hg0]
          have hxz : x % 4 = 0 := hx4.mp hp
          omega
    · have hx4n : x % 4 ≠ 0 := fun hz => hp (hx4.mpr hz)
      have hgap : endGap 0 st.trace = 8 * (x % 4) := hG hc hx4n
      have hstep : stepBlock p c y x st =
          { st with
            buffer := writeBlock st.buffer
              (y * p.tile_rect.size.x + x * SIMD_LANE_COUNT)
              (pixel p.max_iterations (cxLane p x) (cyLane p y)),
            trace := st.trace ++ [SimdEvent.write SIMD_LANE_COUNT] } := by
        simp [stepBlock, hc, hp]
      rw [hstep]
      have hnt2 : hasTruePoll (st.trace ++ [SimdEvent.write SIMD_LANE_COUNT]) = false := by
        rw [hasTruePoll_append, hnt]
        rfl
      refine ⟨⟨?_, ?_, ?_⟩, ?_⟩
      · show gapsOK 0 (st.trace ++ [SimdEvent.write SIMD_LANE_COUNT]) = true
        rw [show SIMD_LANE_COUNT = 8 from rfl, gapsOK_append_write, h1, hgap]
        have hlt : x % 4 < 4 := Nat.mod_lt x (by omega)
        have hle : 8 * (x % 4) + 8 ≤ 32 := by omega
        simp [hle]
      · show st.cancelled = hasTruePoll (st.trace ++ [SimdEvent.write SIMD_LANE_COUNT])
        rw [hc, hnt2]
      · show stopsAtCancel (st.trace ++ [SimdEvent.write SIMD_LANE_COUNT]) = true
        exact stopsAtCancel_of_no_true _ hnt2
      · intro _ hmod4
        show endGap 0 (st.trace ++ [SimdEvent.write SIMD_LANE_COUNT]) = 8 * ((x + 1) % 4)
        rw [show SIMD_LANE_COUNT = 8 from rfl, endGap_append_write, hgap]
        have hlt : x % 4 < 4 := Nat.mod_lt x (by omega)
        omega

theorem xLoop_traceOK (p : SimdParams) (c : ℕ → Bool) (y : ℕ) :
    ∀ n x (st : SimdState), traceOK st → gapAt x st →
      traceOK (xLoop p c y n x st) ∧ gapAt (x + n) (xLoop p c y n x st)
  | 0, x, st, hI, hG => ⟨hI, by rw [Nat.add_zero]; exact hG⟩
  | n + 1, x, st, hI, hG => by
    rw [xLoop]
    obtain ⟨hI2, hG2⟩ := stepBlock_traceOK p c y x st hI hG
    have hrec := xLoop_traceOK p c y n (x + 1) _ hI2 hG2
    refine ⟨hrec.1, ?_⟩
    have harith : x + (n + 1) = x + 1 + n := by omega
    rw [harith]
    exact hrec.2

theorem yLoop_traceOK (p : SimdParams) (c : ℕ → Bool) :
    ∀ n y (st : SimdState), traceOK st → traceOK (yLoop p c n y st)
  | 0, _, _, hI => hI
  | n + 1, y, st, hI => by
    rw [yLoop]
    have hrow := xLoop_traceOK p c y (p.tile_rect.size.x / SIMD_LANE_COUNT) 0 st hI
      (fun _ hz => absurd rfl hz)
    exact yLoop_traceOK p c n (y + 1) _ hrow.1

theorem simdRun_traceOK (p : SimdParams) (c : ℕ → Bool) : traceOK (simdRun p c) := by
  rw [simdRun]
  exact yLoop_traceOK p c _ 0 _ ⟨rfl, rfl, rfl⟩

/-- C3: the compute loop polls the cancel token at least once every 32 pixels
of written output (`gapsOK`), the run returns `Cancelled` exactly when some
poll observed the token set, a poll that observes the token set is the last
event of the run (nothing further is written), and a job whose token is set
before its first poll exits `Cancelled` having written nothing (hence at most
32 pixels). -/
theorem claim_c3 (p : SimdParams) (cancel : ℕ → Bool) :
    gapsOK 0 (simdRun p cancel).trace = true ∧
    (simdRun p cancel).cancelled = hasTruePoll (simdRun p cancel).trace ∧
    stopsAtCancel (simdRun p cancel).trace = true ∧
    (mandelbrot_simd p cancel = Except.error () ↔ (simdRun p cancel).cancelled = true) ∧
    (cancel 0 = true → 0 < p.tile_rect.size.y → 8 ≤ p.tile_rect.size.x →
      (simdRun p cancel).cancelled = true ∧
        totalWrites (simdRun p cancel).trace = 0) := by
  obtain ⟨h1, h2, h3⟩ := simdRun_traceOK p cancel
  refine ⟨h1, h2, h3, ?_, ?_⟩
  · unfold mandelbrot_simd
    cases hcc : (simdRun p cancel).cancelled with
    | true => simp [hcc]
    | false => simp [hcc]
  · intro hc0 hy hx
    obtain ⟨m, hm⟩ : ∃ m, p.tile_rect.size.y = m + 1 := ⟨p.tile_rect.size.y - 1, by omega⟩
    obtain ⟨b, hb⟩ : ∃ b, p.tile_rect.size.x / SIMD_LANE_COUNT = b + 1 :=
      ⟨p.tile_rect.size.x / SIMD_LANE_COUNT - 1, by unfold SIMD_LANE_COUNT; omega⟩
    have hstep : stepBlock p cancel 0 0 (initSimdState p) =
        { initSimdState p with
          cancelled := true,
          trace := [] ++ [SimdEvent.poll true] } := by
      simp [stepBlock, initSimdState, hc0]
    have hrun : simdRun p cancel =
        { initSimdState p with
          cancelled := true,
          trace := [] ++ [SimdEvent.poll true] } := by
      rw [simdRun, hm, yLoop, hb, xLoop, hstep,
        xLoop_frozen p cancel 0 b 1 _ rfl,
        yLoop_frozen p cancel m 1 _ rfl]
    rw [hrun]
    exact ⟨rfl, rfl⟩

/-- Witness for C3: a job whose cancel token is already set writes nothing. -/
theorem claim_c3_witness :
    ((fun _ : ℕ => true) 0 = true ∧
      0 < (1 : ℕ) ∧ (8 : ℕ) ≤ 8) ∧
    ((simdRun
        { image_size := 1, tile_rect := ⟨⟨0, 0⟩, ⟨8, 1⟩⟩,
          fractal_offset := ⟨0, 0⟩, fractal_scale := 1, max_iterations := 0 }
        (fun _ => true)).cancelled = true ∧
      totalWrites (simdRun
        { image_size := 1, tile_rect := ⟨⟨0, 0⟩, ⟨8, 1⟩⟩,
          fractal_offset := ⟨0, 0⟩, fractal_scale := 1, max_iterations := 0 }
        (fun _ => true)).trace = 0) :=
  ⟨⟨rfl, by omega, by omega⟩,
    (claim_c3
      { image_size := 1, tile_rect := ⟨⟨0, 0⟩, ⟨8, 1⟩⟩,
        fractal_offset := ⟨0, 0⟩, fractal_scale := 1, max_iterations := 0 }
      (fun _ => true)).2.2.2.2 rfl (by decide) (by decide)⟩

/-! ## Tile state and upload step (claim C6) -/

/-- C6 counterexample: the code has a fourth tile state `Ready`, and the upload
step moves a `WaitForUpload` tile to `Ready`, not to `Idle` as claimed. -/
theorem claim_c6_cex :
    (uploadTile (TileState.WaitForUpload [1])).1 = TileState.Ready ∧
    TileState.Ready ≠ TileState.Idle ∧
    (uploadTilesGo 0 [TileState.WaitForUpload [1]]).1 = [TileState.Ready] := by
  refine ⟨rfl, by decide, rfl⟩

/-- C6 (amended): a tile state always lies in
{Idle, Computing(job), WaitForUpload(buffer), Ready}; the per-frame upload
step takes the buffer of every `WaitForUpload` tile and sets that tile to
`Ready`, and leaves every other state untouched without uploading. -/
theorem claim_c6 (s : TileState) :
    (s = TileState.Idle ∨ (∃ h, s = TileState.Computing h) ∨
      (∃ b, s = TileState.WaitForUpload b) ∨ s = TileState.Ready) ∧
    (∀ b, uploadTile (TileState.WaitForUpload b) = (TileState.Ready, some b)) ∧
    ((∀ b, s ≠ TileState.WaitForUpload b) → uploadTile s = (s, none)) := by
  refine ⟨?_, fun b => rfl, ?_⟩
  · cases s with
    | Idle => exact Or.inl rfl
    | Computing h => exact Or.inr (Or.inl ⟨h, rfl⟩)
    | WaitForUpload b => exact Or.inr (Or.inr (Or.inl ⟨b, rfl⟩))
    | Ready => exact Or.inr (Or.inr (Or.inr rfl))
  · intro hne
    cases s with
    | Idle => rfl
    | Computing h => rfl
    | WaitForUpload b => exact absurd rfl (hne b)
    | Ready => rfl

/-- Witness for C6 at the `Idle` and `WaitForUpload` states. -/
theorem claim_c6_witness :
    uploadTile TileState.Idle = (TileState.Idle, none) ∧
    uploadTile (TileState.WaitForUpload [2]) = (TileState.Ready, some [2]) :=
  ⟨(claim_c6 TileState.Idle).2.2 (fun b h => by cases h),
    (claim_c6 TileState.Idle).2.1 [2]⟩

/-! ## Render-pass ordering (claim C7) -/

theorem uploadTilesGo_no_blit : ∀ (i : ℕ) (ts : List TileState),
    RenderEvent.submit_blit ∉ (uploadTilesGo i ts).2
  | _, [] => by simp [uploadTilesGo]
  | i, t :: ts => by
    have ih := uploadTilesGo_no_blit (i + 1) ts
    cases t <;> simp [uploadTilesGo, uploadTile, ih]

theorem render_events (m : MandelTexture) :
    (MandelTexture.render m).2 =
      (if m.frame_changed = true then [RenderEvent.submit_blit] else []) ++
        ((uploadTilesGo 0 m.tiles).2 ++ [RenderEvent.submit_surface]) := by
  cases hfc : m.frame_changed with
  | false => simp [MandelTexture.render, blit_textures, upload_tiles, hfc]
  | true => simp [MandelTexture.render, blit_textures, upload_tiles, hfc]

/-- C7: in each frame the blit is submitted exactly when a viewport transition
was recorded, every blit submit precedes every tile-upload texture write of the
frame, and after a submitted blit the front/back textures, views and bind
groups are swapped, the pending-blit flag is cleared and the previous cache
rectangle is set to the current cache rectangle. -/
theorem claim_c7 (m : MandelTexture) :
    ((MandelTexture.render m).2 =
      (if m.frame_changed = true then [RenderEvent.submit_blit] else []) ++
        ((uploadTilesGo 0 m.tiles).2 ++ [RenderEvent.submit_surface])) ∧
    (m.frame_changed = true →
      (MandelTexture.render m).1.texture1 = m.texture2 ∧
      (MandelTexture.render m).1.texture2 = m.texture1 ∧
      (MandelTexture.render m).1.texture1_view = m.texture2_view ∧
      (MandelTexture.render m).1.texture2_view = m.texture1_view ∧
      (MandelTexture.render m).1.bind_group1 = m.bind_group2 ∧
      (MandelTexture.render m).1.bind_group2 = m.bind_group1 ∧
      (MandelTexture.render m).1.frame_changed = false ∧
      (MandelTexture.render m).1.fractal_rect_prev =
        (MandelTexture.render m).1.fractal_rect) ∧
    (m.frame_changed = false → RenderEvent.submit_blit ∉ (MandelTexture.render m).2) ∧
    (∀ (i j k : ℕ), (MandelTexture.render m).2[i]? = some RenderEvent.submit_blit →
      (MandelTexture.render m).2[j]? = some (RenderEvent.write_texture k) → i < j) := by
  refine ⟨render_events m, ?_, ?_, ?_⟩
  · intro hfc
    simp [MandelTexture.render, blit_textures, upload_tiles, hfc]
  · intro hfc
    rw [render_events m, hfc]
    simp only [if_neg (by simp : ¬ (false = true)), List.nil_append, List.mem_append]
    rintro (hmem | hmem)
    · exact uploadTilesGo_no_blit 0 m.tiles hmem
    · simp at hmem
  · intro i j k hi hj
    rw [render_events m] at hi hj
    cases hfc : m.frame_changed with
    | false =>
      simp only [hfc, Bool.false_eq_true, if_false, List.nil_append] at hi
      exfalso
      have hmem : RenderEvent.submit_blit ∈
          (uploadTilesGo 0 m.tiles).2 ++ [RenderEvent.submit_surface] :=
        List.getElem?_mem hi
      rw [List.mem_append] at hmem
      rcases hmem with hmem | hmem
      · exact uploadTilesGo_no_blit 0 m.tiles hmem
      · simp at hmem
    | true =>
      simp only [hfc, eq_self_iff_true, if_true, List.singleton_append] at hi hj
      cases i with
      | zero =>
        cases j with
        | zero =>
          rw [List.getElem?_cons_zero] at hj
          cases hj
        | succ j2 => omega
      | succ i2 =>
        exfalso
        rw [List.getElem?_cons_succ] at hi
        have hmem : RenderEvent.submit_blit ∈
            (uploadTilesGo 0 m.tiles).2 ++ [RenderEvent.submit_surface] :=
          List.getElem?_mem hi
        rw [List.mem_append] at hmem
        rcases hmem with hmem | hmem
        · exact uploadTilesGo_no_blit 0 m.tiles hmem
        · simp at hmem

/-- Witness for C7 on a state with a pending blit and one tile awaiting
upload: the blit is the first submitted command, it precedes the tile write,
and afterwards the textures are swapped, the flag cleared and the previous
cache rectangle equals the current one. -/
theorem claim_c7_witness :
    (MandelTexture.render
      { texture1 := 1, texture2 := 2, texture1_view := 3, texture2_view := 4,
        bind_group1 := 5, bind_group2 := 6, frame_changed := true,
        fractal_rect := ⟨⟨0, 0⟩, ⟨1, 1⟩⟩, fractal_rect_prev := ⟨⟨0, 0⟩, ⟨0, 0⟩⟩,
        tiles := [TileState.WaitForUpload [0]] }).1.texture1 = 2 ∧
    (MandelTexture.render
      { texture1 := 1, texture2 := 2, texture1_view := 3, texture2_view := 4,
        bind_group1 := 5, bind_group2 := 6, frame_changed := true,
        fractal_rect := ⟨⟨0, 0⟩, ⟨1, 1⟩⟩, fractal_rect_prev := ⟨⟨0, 0⟩, ⟨0, 0⟩⟩,
        tiles := [TileState.WaitForUpload [0]] }).1.frame_changed = false ∧
    (MandelTexture.render
      { texture1 := 1, texture2 := 2, texture1_view := 3, texture2_view := 4,
        bind_group1 := 5, bind_group2 := 6, frame_changed := true,
        fractal_rect := ⟨⟨0, 0⟩, ⟨1, 1⟩⟩, fractal_rect_prev := ⟨⟨0, 0⟩, ⟨0, 0⟩⟩,
        tiles := [TileState.WaitForUpload [0]] }).1.fractal_rect_prev =
      (MandelTexture.render
        { texture1 := 1, texture2 := 2, texture1_view := 3, texture2_view := 4,
          bind_group1 := 5, bind_group2 := 6, frame_changed := true,
          fractal_rect := ⟨⟨0, 0⟩, ⟨1, 1⟩⟩, fractal_rect_prev := ⟨⟨0, 0⟩, ⟨0, 0⟩⟩,
          tiles := [TileState.WaitForUpload [0]] }).1.fractal_rect ∧
    (0 : ℕ) < 1 :=
  ⟨((claim_c7
      { texture1 := 1, texture2 := 2, texture1_view := 3, texture2_view := 4,
        bind_group1 := 5, bind_group2 := 6, frame_changed := true,
        fractal_rect := ⟨⟨0, 0⟩, ⟨1, 1⟩⟩, fractal_rect_prev := ⟨⟨0, 0⟩, ⟨0, 0⟩⟩,
        tiles := [TileState.WaitForUpload [0]] }).2.1 rfl).1,
    ((claim_c7
      { texture1 := 1, texture2 := 2, texture1_view := 3, texture2_view := 4,
        bind_group1 := 5, bind_group2 := 6, frame_changed := true,
        fractal_rect := ⟨⟨0, 0⟩, ⟨1, 1⟩⟩, fractal_rect_prev := ⟨⟨0, 0⟩, ⟨0, 0⟩⟩,
        tiles := [TileState.WaitForUpload [0]] }).2.1 rfl).2.2.2.2.2.2.1,
    ((claim_c7
      { texture1 := 1, texture2 := 2, texture1_view := 3, texture2_view := 4,
        bind_group1 := 5, bind_group2 := 6, frame_changed := true,
        fractal_rect := ⟨⟨0, 0⟩, ⟨1, 1⟩⟩, fractal_rect_prev := ⟨⟨0, 0⟩, ⟨0, 0⟩⟩,
        tiles := [TileState.WaitForUpload [0]] }).2.1 rfl).2.2.2.2.2.2.2,
    (claim_c7
      { texture1 := 1, texture2 := 2, texture1_view := 3, texture2_view := 4,
        bind_group1 := 5, bind_group2 := 6, frame_changed := true,
        fractal_rect := ⟨⟨0, 0⟩, ⟨1, 1⟩⟩, fractal_rect_prev := ⟨⟨0, 0⟩, ⟨0, 0⟩⟩,
        tiles := [TileState.WaitForUpload [0]] }).2.2.2 0 1 0 rfl rfl⟩

/-! ## Cache-rectangle update (claim C5) -/

theorem update_rect_spec (m : TexRectState) (vp : DRect) :
    (¬ (m.fractal_rect.contains vp = true ∧ vp.size.length_squared = m.fractal_scale) →
      MandelTexture.update_rect m vp =
        { m with
          frame_rect := vp,
          frame_changed := true,
          fractal_rect_prev := m.fractal_rect,
          fractal_scale := vp.size.length_squared,
          fractal_rect := DRect.from_center_size vp.center
            ⟨vp.size.x * (m.texture_size : ℚ) / (m.window_size.x : ℚ),
             vp.size.x * (m.texture_size : ℚ) / (m.window_size.x : ℚ)⟩ }) ∧
    (m.fractal_rect.contains vp = true ∧ vp.size.length_squared = m.fractal_scale →
      MandelTexture.update_rect m vp = { m with frame_rect := vp }) := by
  constructor
  · intro hcond
    by_cases hcont : m.fractal_rect.contains vp = true
    · have hne : ¬ (vp.size.length_squared = m.fractal_scale) := by
        intro hsc
        exact hcond ⟨hcont, hsc⟩
      simp [MandelTexture.update_rect, hcont, hne]
    · rw [Bool.not_eq_true] at hcont
      by_cases hsc : vp.size.length_squared = m.fractal_scale
      · simp [MandelTexture.update_rect, hcont, hsc]
      · simp [MandelTexture.update_rect, hcont, hsc]
  · intro ⟨hcont, hsc⟩
    simp [MandelTexture.update_rect, hcont, hsc]

theorem contains_square (c : DVec2) (s : ℚ) (vp : DRect) (hc : c = vp.center) :
    ((DRect.from_center_size c ⟨s, s⟩).contains vp = true ↔
      vp.size.x ≤ s ∧ vp.size.y ≤ s) := by
  subst hc
  simp only [DRect.contains, DRect.from_center_size, DRect.center, Bool.and_eq_true,
    decide_eq_true_eq]
  constructor
  · rintro ⟨⟨⟨h1, h2⟩, h3⟩, h4⟩
    constructor <;> linarith
  · rintro ⟨h1, h2⟩
    refine ⟨⟨⟨by linarith, by linarith⟩, by linarith⟩, by linarith⟩

/-- C5 (amended): after `update`, when the viewport left the cache or its
scale changed, the cache rectangle is recentered on the viewport with both
components of its size equal to `viewport.size.x * texture_size /
window_size.x` (the y component also uses the x data), and it contains the
viewport exactly when `viewport.size.x` and `viewport.size.y` are at most that
common size; otherwise the cache rectangle is unchanged and still contains the
viewport. -/
theorem claim_c5 (m : TexRectState) (vp : DRect) :
    (¬ (m.fractal_rect.contains vp = true ∧ vp.size.length_squared = m.fractal_scale) →
      (MandelTexture.update_rect m vp).fractal_rect =
        DRect.from_center_size vp.center
          ⟨vp.size.x * (m.texture_size : ℚ) / (m.window_size.x : ℚ),
           vp.size.x * (m.texture_size : ℚ) / (m.window_size.x : ℚ)⟩ ∧
      ((MandelTexture.update_rect m vp).fractal_rect.contains vp = true ↔
        vp.size.x ≤ vp.size.x * (m.texture_size : ℚ) / (m.window_size.x : ℚ) ∧
        vp.size.y ≤ vp.size.x * (m.texture_size : ℚ) / (m.window_size.x : ℚ))) ∧
    (m.fractal_rect.contains vp = true ∧ vp.size.length_squared = m.fractal_scale →
      (MandelTexture.update_rect m vp).fractal_rect = m.fractal_rect ∧
      (MandelTexture.update_rect m vp).fractal_rect.contains vp = true) := by
  obtain ⟨hchanged, hsame⟩ := update_rect_spec m vp
  constructor
  · intro hcond
    rw [hchanged hcond]
    exact ⟨rfl, contains_square vp.center _ vp rfl⟩
  · intro hcond
    rw [hsame hcond]
    exact ⟨rfl, hcond.1⟩

/-- C5 counterexample: texture size 8192, window 100x100, initial state as
after construction (`fractal_scale = 1`, zero rectangles), viewport of size
(1, 200).  After `update` the cache does not contain the viewport, and
`cache.size.y` is `1 * 8192 / 100`, not the claimed
`viewport.size.y * 8192 / 100 = 16384`. -/
theorem claim_c5_cex :
    (MandelTexture.update_rect
        { window_size := ⟨100, 100⟩, texture_size := 8192,
          frame_rect := ⟨⟨0, 0⟩, ⟨0, 0⟩⟩, fractal_rect := ⟨⟨0, 0⟩, ⟨0, 0⟩⟩,
          fractal_rect_prev := ⟨⟨0, 0⟩, ⟨0, 0⟩⟩, fractal_scale := 1,
          frame_changed := false }
        ⟨⟨0, 0⟩, ⟨1, 200⟩⟩).fractal_rect.contains ⟨⟨0, 0⟩, ⟨1, 200⟩⟩ = false ∧
    (MandelTexture.update_rect
        { window_size := ⟨100, 100⟩, texture_size := 8192,
          frame_rect := ⟨⟨0, 0⟩, ⟨0, 0⟩⟩, fractal_rect := ⟨⟨0, 0⟩, ⟨0, 0⟩⟩,
          fractal_rect_prev := ⟨⟨0, 0⟩, ⟨0, 0⟩⟩, fractal_scale := 1,
          frame_changed := false }
        ⟨⟨0, 0⟩, ⟨1, 200⟩⟩).fractal_rect.size.y ≠ (200 : ℚ) * 8192 / 100 := by
  have hupd := (update_rect_spec
      { window_size := ⟨100, 100⟩, texture_size := 8192,
        frame_rect := ⟨⟨0, 0⟩, ⟨0, 0⟩⟩, fractal_rect := ⟨⟨0, 0⟩, ⟨0, 0⟩⟩,
        fractal_rect_prev := ⟨⟨0, 0⟩, ⟨0, 0⟩⟩, fractal_scale := 1,
        frame_changed := false }
      ⟨⟨0, 0⟩, ⟨1, 200⟩⟩).1 (by
    rintro ⟨_, hsc⟩
    norm_num [DVec2.length_squared] at hsc)
  rw [hupd]
  constructor
  · rw [Bool.eq_false_iff]
    intro hcontra
    rw [contains_square _ _ _ rfl] at hcontra
    obtain ⟨_, h2⟩ := hcontra
    norm_num at h2
  · norm_num [DRect.from_center_size]

/-- Witness for C5 in the unchanged branch: a viewport already inside the
cache with unchanged squared size leaves the cache rectangle alone. -/
theorem claim_c5_witness :
    (MandelTexture.update_rect
        { window_size := ⟨100, 100⟩, texture_size := 8192,
          frame_rect := ⟨⟨0, 0⟩, ⟨0, 0⟩⟩, fractal_rect := ⟨⟨0, 0⟩, ⟨4, 4⟩⟩,
          fractal_rect_prev := ⟨⟨0, 0⟩, ⟨0, 0⟩⟩, fractal_scale := 2,
          frame_changed := false }
        ⟨⟨1, 1⟩, ⟨1, 1⟩⟩).fractal_rect = ⟨⟨0, 0⟩, ⟨4, 4⟩⟩ ∧
    (MandelTexture.update_rect
        { window_size := ⟨100, 100⟩, texture_size := 8192,
          frame_rect := ⟨⟨0, 0⟩, ⟨0, 0⟩⟩, fractal_rect := ⟨⟨0, 0⟩, ⟨4, 4⟩⟩,
          fractal_rect_prev := ⟨⟨0, 0⟩, ⟨0, 0⟩⟩, fractal_scale := 2,
          frame_changed := false }
        ⟨⟨1, 1⟩, ⟨1, 1⟩⟩).fractal_rect.contains ⟨⟨1, 1⟩, ⟨1, 1⟩⟩ = true :=
  (claim_c5
    { window_size := ⟨100, 100⟩, texture_size := 8192,
      frame_rect := ⟨⟨0, 0⟩, ⟨0, 0⟩⟩, fractal_rect := ⟨⟨0, 0⟩, ⟨4, 4⟩⟩,
      fractal_rect_prev := ⟨⟨0, 0⟩, ⟨0, 0⟩⟩, fractal_scale := 2,
      frame_changed := false }
    ⟨⟨1, 1⟩, ⟨1, 1⟩⟩).2
    ⟨by simp only [DRect.contains, Bool.and_eq_true, decide_eq_true_eq]; norm_num,
      by norm_num [DVec2.length_squared]⟩

/-! ## Scroll zoom (claim C8) -/

/-- C8: for a scroll event with scalar delta `s` at pointer position `pos`
(the wheel arm passes a zero move delta), `zoom = 1.15 ^ (s / 5)`, the new
draft scale (the viewport size) is the old one times `zoom`, the new draft
offset (the viewport center) is the old one minus `m * (new - old)` where `m`
is the pointer position in center-relative normalized coordinates (y flipped),
and a pointer at the window center leaves the offset unchanged. -/
theorem claim_c8 (window_size : Vec2R) (a : AppView) (pos : Vec2R) (s : ℝ) :
    (on_mouse_wheel window_size a pos s).draft_scale =
      a.draft_scale * (1.15 : ℝ) ^ (s / 5) ∧
    (on_mouse_wheel window_size a pos s).draft_offset.x =
      a.draft_offset.x - (2 * (pos.x / window_size.x) - 1) *
        ((on_mouse_wheel window_size a pos s).draft_scale - a.draft_scale) ∧
    (on_mouse_wheel window_size a pos s).draft_offset.y =
      a.draft_offset.y - (2 * ((window_size.y - pos.y) / window_size.y) - 1) *
        ((on_mouse_wheel window_size a pos s).draft_scale - a.draft_scale) ∧
    (window_size.x ≠ 0 → window_size.y ≠ 0 →
      pos.x = window_size.x / 2 → pos.y = window_size.y / 2 →
      (on_mouse_wheel window_size a pos s).draft_offset.x = a.draft_offset.x ∧
      (on_mouse_wheel window_size a pos s).draft_offset.y = a.draft_offset.y) := by
  have hscale : (on_mouse_wheel window_size a pos s).draft_scale =
      a.draft_scale * (1.15 : ℝ) ^ (s / 5) := rfl
  have hox : (on_mouse_wheel window_size a pos s).draft_offset.x =
      2 * 0 * (a.draft_scale * (1.15 : ℝ) ^ (s / 5)) + a.draft_offset.x
        - (pos.x / window_size.x * 2 - 1) *
          (a.draft_scale * (1.15 : ℝ) ^ (s / 5) - a.draft_scale) := rfl
  have hoy : (on_mouse_wheel window_size a pos s).draft_offset.y =
      2 * (-(0 : ℝ)) * (a.draft_scale * (1.15 : ℝ) ^ (s / 5)) + a.draft_offset.y
        - ((window_size.y - pos.y) / window_size.y * 2 - 1) *
          (a.draft_scale * (1.15 : ℝ) ^ (s / 5) - a.draft_scale) := rfl
  refine ⟨hscale, ?_, ?_, ?_⟩
  · rw [hox, hscale]
    ring
  · rw [hoy, hscale]
    ring
  · intro hx hy hpx hpy
    constructor
    · rw [hox, hpx]
      have hhalf : window_size.x / 2 / window_size.x = 1 / 2 := by
        rw [div_div, mul_comm, ← div_div, div_self hx]
      rw [hhalf]
      ring
    · rw [hoy, hpy]
      have hhalf : (window_size.y - window_size.y / 2) / window_size.y = 1 / 2 := by
        field_simp
        ring
      rw [hhalf]
      ring

/-- Witness for C8 at a 800x600 window with the pointer at the center. -/
theorem claim_c8_witness :
    (on_mouse_wheel (Vec2R.mk 800 600) ⟨⟨0, 0⟩, 1, ⟨0, 0⟩, 1⟩
        (Vec2R.mk 400 300) 5).draft_offset.x = (⟨⟨0, 0⟩, 1, ⟨0, 0⟩, 1⟩ : AppView).draft_offset.x ∧
    (on_mouse_wheel (Vec2R.mk 800 600) ⟨⟨0, 0⟩, 1, ⟨0, 0⟩, 1⟩
        (Vec2R.mk 400 300) 5).draft_offset.y = (⟨⟨0, 0⟩, 1, ⟨0, 0⟩, 1⟩ : AppView).draft_offset.y :=
  (claim_c8 (Vec2R.mk 800 600) ⟨⟨0, 0⟩, 1, ⟨0, 0⟩, 1⟩ (Vec2R.mk 400 300) 5).2.2.2
    (by norm_num) (by norm_num) (by norm_num) (by norm_num)

/-! ## Buffer pool (claim C9) -/

/-- C9: from a pool created with reserve 4 and buffer size `B`, 8 takes with
no intervening drops pop the 4 reserved buffers and allocate exactly 4 fresh
ones; every handed-out buffer has size `B`; `taken_buffer_count` (the spec's
`outstanding()`) is then 8; after all 8 handles drop it is 0 and 8 buffers are
available for reuse. -/
theorem claim_c9 (B : ℕ) :
    (takeN 8 (BufferPool.new B 4)).1.total_allocated = 8 ∧
    (takeN 8 (BufferPool.new B 4)).1.total_allocated -
      (BufferPool.new B 4).total_allocated = 4 ∧
    (takeN 8 (BufferPool.new B 4)).2.length = 8 ∧
    (∀ b ∈ (takeN 8 (BufferPool.new B 4)).2, b.length = B) ∧
    taken_buffer_count (takeN 8 (BufferPool.new B 4)).1 = 8 ∧
    taken_buffer_count
      ((takeN 8 (BufferPool.new B 4)).2.foldl BufferHandle.drop
        (takeN 8 (BufferPool.new B 4)).1) = 0 ∧
    ((takeN 8 (BufferPool.new B 4)).2.foldl BufferHandle.drop
      (takeN 8 (BufferPool.new B 4)).1).available.length = 8 := by
  have hnew : BufferPool.new B 4 =
      { buf_size := B,
        available := [List.replicate B 0, List.replicate B 0,
          List.replicate B 0, List.replicate B 0],
        total_allocated := 4 } := by
    simp [BufferPool.new, List.replicate]
  rw [hnew]
  refine ⟨rfl, rfl, rfl, ?_, rfl, rfl, rfl⟩
  intro b hb
  simp only [takeN, BufferPool.take, List.mem_cons] at hb
  rcases hb with h | h | h | h | h | h | h | h | h <;>
    first
      | (rw [h]; exact List.length_replicate B 0)
      | (simp at h)

/-- Witness for C9 at buffer size 5. -/
theorem claim_c9_witness :
    taken_buffer_count (takeN 8 (BufferPool.new 5 4)).1 = 8 ∧
    taken_buffer_count
      ((takeN 8 (BufferPool.new 5 4)).2.foldl BufferHandle.drop
        (takeN 8 (BufferPool.new 5 4)).1) = 0 :=
  ⟨(claim_c9 5).2.2.2.2.1, (claim_c9 5).2.2.2.2.2.1⟩

end Mandel
